import Mathlib

/-!
Verification of the client-side state-management layer of a static personal
website (theme manager, vibe-theme cycler, table-of-contents widget, bio
collapse).  The JavaScript sources `script.js` and `js/toc.js` are shallowly
embedded: DOM reads and writes become explicit record updates, the
`classList` of an element becomes a list of strings (`add` is idempotent,
`remove` drops every occurrence), the inline style of the document element
becomes an association list of CSS custom properties, and `localStorage`
becomes an association list of string keys, with a possible-exception
parameter wherever the real API can throw.
-/

set_option linter.unusedVariables false

/-! ## JavaScript exception results and the safe localStorage wrapper

`js/toc.js` defines a `storage` object wrapping `localStorage` in
`try`/`catch`.  A call into the underlying `localStorage` either returns
normally or throws; `JsResult` captures the two outcomes. -/

/-- Outcome of a JavaScript expression: a normal value or a thrown exception. -/
inductive JsResult (α : Type) where
  | ok (value : α)
  | thrown
  deriving DecidableEq

/-- True when the result is a normal (non-thrown) value. -/
def JsResult.isOk : JsResult α → Bool
  | .ok _ => true
  | .thrown => false

/-- Semantics of a JS `try { e } catch { h }` where the handler returns
normally: a thrown attempt is replaced by the handler value. -/
def jsTryCatch (attempt : JsResult α) (handler : α) : JsResult α :=
  match attempt with
  | .ok v => .ok v
  | .thrown => .ok handler

/-- Embedding of `storage.get` (`js/toc.js` lines 917-924): returns
`localStorage.getItem(key)` and falls back to `null` (here `none`) when the
access throws.  `getItemResult` is the outcome of the underlying
`localStorage.getItem` call. -/
def storageGet (getItemResult : JsResult (Option String)) : JsResult (Option String) :=
  jsTryCatch getItemResult none

/-- Embedding of `storage.set` (`js/toc.js` lines 926-934): performs
`localStorage.setItem(key, value)` and returns `true`, or `false` when the
write throws. -/
def storageSet (setItemResult : JsResult Unit) : JsResult Bool :=
  jsTryCatch
    (match setItemResult with
     | .ok _ => .ok true
     | .thrown => .thrown)
    false

/-- Embedding of `storage.remove` (`js/toc.js` lines 936-944): performs
`localStorage.removeItem(key)` and returns `true`, or `false` when the
removal throws. -/
def storageRemove (removeItemResult : JsResult Unit) : JsResult Bool :=
  jsTryCatch
    (match removeItemResult with
     | .ok _ => .ok true
     | .thrown => .thrown)
    false

/-! ## Browser storage as an association list

For the persistence claims we track the whole key-value store.  `setItem`
overwrites an existing binding or appends a new one. -/

/-- The browser local storage contents: keys bound to string values. -/
abbrev Storage := List (String × String)

/-- The effect of a successful `localStorage.setItem(key, value)`. -/
def setItem (key value : String) : Storage → Storage
  | [] => [(key, value)]
  | (k, v) :: rest =>
    if k = key then (key, value) :: rest else (k, v) :: setItem key value rest

/-- Look up a key in the storage contents. -/
def getItem (key : String) : Storage → Option String
  | [] => none
  | (k, v) :: rest => if k = key then some v else getItem key rest

/-! ## DOM class lists

A DOM `classList` behaves like an ordered set: `add` appends the class when
absent, `remove` deletes every occurrence. -/

/-- Embedding of `classList.add`. -/
def addClass (c : String) (classes : List String) : List String :=
  if c ∈ classes then classes else classes ++ [c]

/-- Embedding of `classList.remove`. -/
def removeClass (c : String) (classes : List String) : List String :=
  classes.filter (fun x => x ≠ c)

/-- Embedding of a `classList.remove(c1, c2, ...)` call with several
arguments, applied left to right. -/
def removeClasses (cs : List String) (classes : List String) : List String :=
  cs.foldl (fun acc c => removeClass c acc) classes

/-! ## ThemeManager (`script.js` lines 210-383, `js/toc.js` lines 1320-1521)

The observable state: the current theme string, the original theme
remembered while in vibe mode, the vibe-mode flag, whether the `dark` class
is on the document element, the inline CSS custom properties on the document
element, the `aria-checked` attribute of the toggle, and the slider
position. -/

/-- State of a `ThemeManager` instance plus the document bits it touches. -/
structure TMState where
  currentTheme : String
  originalTheme : String
  isVibeMode : Bool
  /-- whether `documentElement.classList` contains `dark` -/
  htmlDark : Bool
  /-- inline CSS custom properties set on `documentElement.style` -/
  rootStyle : List (String × String)
  /-- the `aria-checked` attribute of the theme toggle button -/
  ariaChecked : String
  /-- whether the toggle slider carries `translate-x-6` (dark position) -/
  sliderDark : Bool
  deriving DecidableEq

/-- Embedding of `style.setProperty(key, value)` on an association list. -/
def setProp (key value : String) : List (String × String) → List (String × String)
  | [] => [(key, value)]
  | (k, v) :: rest =>
    if k = key then (key, value) :: rest else (k, v) :: setProp key value rest

/-- Embedding of `style.removeProperty(key)`. -/
def removeProp (key : String) (style : List (String × String)) : List (String × String) :=
  style.filter (fun kv => kv.1 ≠ key)

/-- Embedding of `ThemeManager.updateToggleUI` (`script.js` lines 315-325). -/
def updateToggleUI (isDark : Bool) (s : TMState) : TMState :=
  { s with sliderDark := isDark }

/-- Embedding of `ThemeManager.applyTheme` (`script.js` lines 296-313): adds
or removes the `dark` class, records the current theme, and sets
`aria-checked` to the string form of `theme === 'dark'`. -/
def applyTheme (theme : String) (s : TMState) : TMState :=
  let s1 :=
    if theme = "dark" then
      updateToggleUI true { s with htmlDark := true }
    else
      updateToggleUI false { s with htmlDark := false }
  { s1 with
    currentTheme := theme
    ariaChecked := if theme = "dark" then "true" else "false" }

/-- Embedding of `ThemeManager.applyVibeTheme` (`script.js` lines 332-345):
on first entry stores the original theme and raises the vibe flag, then sets
every property of the palette on the document element. -/
def applyVibeTheme (themeColors : List (String × String)) (s : TMState) : TMState :=
  let s1 :=
    if ¬ s.isVibeMode then
      { s with originalTheme := s.currentTheme, isVibeMode := true }
    else s
  { s1 with rootStyle := themeColors.foldl (fun st kv => setProp kv.1 kv.2 st) s1.rootStyle }

/-- The fixed list of CSS custom properties cleared by
`ThemeManager.exitVibeMode` (`script.js` lines 357-363). -/
def vibeProperties : List String :=
  ["--background", "--foreground", "--card", "--card-foreground",
   "--popover", "--popover-foreground", "--primary", "--primary-foreground",
   "--secondary", "--secondary-foreground", "--muted", "--muted-foreground",
   "--accent", "--accent-foreground", "--destructive", "--destructive-foreground",
   "--border", "--input", "--ring", "--link", "--link-hover"]

/-- Embedding of `ThemeManager.exitVibeMode` (`script.js` lines 351-373):
no-op unless in vibe mode; otherwise removes the fixed property list from
the document element, restores the original theme and clears the flag. -/
def exitVibeMode (s : TMState) : TMState :=
  if ¬ s.isVibeMode then s
  else
    let s1 := { s with rootStyle := vibeProperties.foldl (fun st k => removeProp k st) s.rootStyle }
    let s2 := { s1 with currentTheme := s1.originalTheme }
    let s3 := applyTheme s2.currentTheme s2
    { s3 with isVibeMode := false }

/-- Embedding of `ThemeManager.toggleTheme` (`script.js` lines 275-288):
exits vibe mode when active, flips light/dark, applies the theme, and writes
the preference under the `'theme'` storage key.  The vibe-check manager
reset triggered on exit touches no storage and no `TMState` field and is
modeled separately. -/
def toggleTheme (s : TMState) (st : Storage) : TMState × Storage :=
  let s1 := if s.isVibeMode then exitVibeMode s else s
  let next := if s1.currentTheme = "light" then "dark" else "light"
  let s2 := applyTheme next { s1 with currentTheme := next }
  (s2, setItem "theme" next st)

/-- Embedding of `ThemeManager.toggleTheme` from `js/toc.js` lines
1390-1403, which writes through the safe `storage.set` wrapper: when the
underlying `localStorage.setItem` throws (`setOutcome = .thrown`) the store
is left unchanged. -/
def toggleThemeSafe (setOutcome : JsResult Unit) (s : TMState) (st : Storage) :
    TMState × Storage :=
  let s1 := if s.isVibeMode then exitVibeMode s else s
  let next := if s1.currentTheme = "light" then "dark" else "light"
  let s2 := applyTheme next { s1 with currentTheme := next }
  (s2, match setOutcome with | .ok _ => setItem "theme" next st | .thrown => st)

/-! ## VibeCheckManager (`js/toc.js` lines 1529-2060)

The vibe-check easter egg cycles through a list of named palettes loaded
from JSON.  We track the loaded theme list, the current index, the loaded
flag, the body class list, the error/panel visibility and the title text,
together with the `ThemeManager` state it drives. -/

/-- One vibe theme from `vibe-themes/theme-data.json`: a display name and a
palette of CSS custom-property overrides. -/
structure VibeTheme where
  name : String
  colors : List (String × String)
  deriving DecidableEq

/-- State of a `VibeCheckManager` instance plus the DOM bits it touches. -/
structure VCState where
  themes : List VibeTheme
  currentThemeIndex : Nat
  isLoaded : Bool
  /-- the `classList` of `document.body` -/
  bodyClasses : List String
  /-- whether `#vibe-error` carries `is-hidden` -/
  errorHidden : Bool
  /-- whether the slide-up panel carries `is-visible` -/
  panelVisible : Bool
  /-- the text content of `#vibe-title` -/
  vibeTitle : String
  /-- the `ThemeManager` this manager drives -/
  tm : TMState
  deriving DecidableEq

/-- The per-theme body classes handled by `showVibeTheme` and `reset`
(`js/toc.js` lines 1715 and 1983). -/
def specialThemeClasses : List String :=
  ["synthwave-active", "desert-pinon-active", "texas-wildflower-active",
   "falling-water-active", "park-ranger-active", "craftsman-comfort-active",
   "cher-orleans-active", "star-stuff-active", "reader-beware-active"]

/-- The body class added for a given theme name by the `if`/`else if` chain
of `showVibeTheme` (`js/toc.js` lines 1717-1735), if any. -/
def themeClassFor (name : String) : Option String :=
  if name = "Synthwave Sunset" then some "synthwave-active"
  else if name = "Desert Pinon" then some "desert-pinon-active"
  else if name = "Texas Wildflower" then some "texas-wildflower-active"
  else if name = "Falling Water" then some "falling-water-active"
  else if name = "Park Ranger" then some "park-ranger-active"
  else if name = "Craftsman Comfort" then some "craftsman-comfort-active"
  else if name = "Cher Orleans" then some "cher-orleans-active"
  else if name = "Star Stuff" then some "star-stuff-active"
  else if name = "Reader Beware" then some "reader-beware-active"
  else none

/-- Embedding of `VibeCheckManager.showVibeTheme` (`js/toc.js` lines
1693-1745): early return unless loaded with a non-empty theme list;
otherwise hides the error, sets the title, opens the panel, applies the
palette through the theme manager, removes all special theme classes from
the body and adds the one matching the current theme name.  An out-of-range
index would throw in JS (reading `.name` of `undefined`); the invariant
theorems assume the index is in range, and the embedding leaves the state
unchanged in that unreachable case.  Image loading, screen-reader
announcements and preloading touch neither the body classes nor the theme
state and are not tracked. -/
def showVibeTheme (s : VCState) : VCState :=
  if ¬ s.isLoaded ∨ s.themes.length = 0 then s
  else
    match s.themes.get? s.currentThemeIndex with
    | none => s
    | some current =>
      let s1 := { s with
        errorHidden := true
        vibeTitle := current.name
        panelVisible := true
        tm := applyVibeTheme current.colors s.tm }
      let cleared := removeClasses specialThemeClasses s1.bodyClasses
      { s1 with
        bodyClasses :=
          match themeClassFor current.name with
          | some c => addClass c cleared
          | none => cleared }

/-- Embedding of `VibeCheckManager.cycleToNextTheme` (`js/toc.js` lines
1683-1687): advance the index modulo the theme count, then show. -/
def cycleToNextTheme (s : VCState) : VCState :=
  showVibeTheme { s with currentThemeIndex := (s.currentThemeIndex + 1) % s.themes.length }

/-- Embedding of `VibeCheckManager.reset` (`js/toc.js` lines 1974-1984):
close the panel, hide the error, zero the index and strip every special
theme class from the body. -/
def vibeReset (s : VCState) : VCState :=
  { s with
    panelVisible := false
    errorHidden := true
    currentThemeIndex := 0
    bodyClasses := removeClasses specialThemeClasses s.bodyClasses }

/-! ## TOCManager panel state (`script.js` lines 591-856)

The open/close state machine of the table-of-contents panel: the `isOpen`
flag, the `aria-expanded` attribute of the toggle and the class lists of the
panel, hamburger icon, close icon and overlay. -/

/-- State of the TOC panel machinery touched by `openTOC`/`closeTOC`. -/
structure TOCPanelState where
  isOpen : Bool
  /-- the `aria-expanded` attribute of `#toc-toggle` -/
  ariaExpanded : String
  panelClasses : List String
  hamburgerClasses : List String
  closeClasses : List String
  overlayClasses : List String
  deriving DecidableEq

/-- Embedding of `TOCManager.openTOC` (`script.js` lines 739-759).  The
width decides whether the mobile overlay is shown.  The deferred focus call
does not change this state. -/
def openTOC (width : Nat) (s : TOCPanelState) : TOCPanelState :=
  let s1 := { s with
    isOpen := true
    panelClasses := addClass "visible" (removeClass "hidden" s.panelClasses)
    hamburgerClasses := addClass "hidden" s.hamburgerClasses
    closeClasses := removeClass "hidden" s.closeClasses }
  let s2 :=
    if width < 1024 then
      { s1 with overlayClasses := addClass "visible" (removeClass "hidden" s1.overlayClasses) }
    else s1
  { s2 with ariaExpanded := "true" }

/-- Embedding of `TOCManager.closeTOC` (`script.js` lines 766-787).  The
`hidden` classes added by the 150 ms timeout after closing are deferred DOM
work guarded by `!this.isOpen`; they do not affect the open flag or
`aria-expanded` and are not tracked. -/
def closeTOC (s : TOCPanelState) : TOCPanelState :=
  { s with
    isOpen := false
    panelClasses := removeClass "visible" s.panelClasses
    hamburgerClasses := removeClass "hidden" s.hamburgerClasses
    closeClasses := addClass "hidden" s.closeClasses
    overlayClasses := removeClass "visible" s.overlayClasses
    ariaExpanded := "false" }

/-- Embedding of `TOCManager.toggleTOC` (`script.js` lines 725-732). -/
def toggleTOC (width : Nat) (s : TOCPanelState) : TOCPanelState :=
  if s.isOpen then closeTOC s else openTOC width s

/-- Embedding of `BioCollapseManager.expandBio` (`script.js` lines
1171-1176): adds the `expanded` class to the bio content element. -/
def expandBio (bioClasses : List String) : List String :=
  addClass "expanded" bioClasses

/-- Embedding of `BioCollapseManager.handleViewportChange` (`script.js`
lines 1182-1187): collapses the bio again on viewports wider than 768. -/
def bioViewportChange (width : Nat) (bioClasses : List String) : List String :=
  if width > 768 then removeClass "expanded" bioClasses else bioClasses

/-! ## ScrollTracker (`script.js` lines 480-585, `js/toc.js` lines 125-401)

Scroll positions and element coordinates are idealized as exact rationals.
A tracked heading is its generated id together with the viewport-relative
top returned by `getBoundingClientRect().top`. -/

/-- A heading as seen by the scroll tracker: its id and its
viewport-relative top coordinate. -/
structure TrackedHeading where
  id : String
  top : ℚ
  deriving DecidableEq

/-- The `for` loop of `ScrollTracker.updateActiveHeading` (`script.js`
lines 539-548): walk the headings in order, remember the id of each heading
whose viewport top is at most the threshold, and `break` at the first one
below it. -/
def activeFromThreshold (threshold : ℚ) : List TrackedHeading → Option String
  | [] => none
  | h :: rest =>
    if h.top ≤ threshold then
      match activeFromThreshold threshold rest with
      | some i => some i
      | none => some h.id
    else none

/-- Embedding of `ScrollTracker.updateActiveHeading` (`script.js` lines
522-552): with no headings the update returns without changing anything
(`none` here); within 100 px of the document bottom the last heading is
selected; otherwise the last heading of the initial run whose viewport top
is at most `windowHeight * 0.3` is selected (`none` when even the first
heading is below the threshold). -/
def updateActiveHeading (headings : List TrackedHeading)
    (scrollTop windowHeight docHeight : ℚ) : Option String :=
  match headings.getLast? with
  | none => none
  | some last =>
    if scrollTop + windowHeight ≥ docHeight - 100 then some last.id
    else activeFromThreshold (windowHeight * (3 / 10)) headings

/-- Embedding of `handleScroll` (`js/toc.js` lines 170-214): when within
100 px of the bottom and headings exist, the last heading becomes active;
otherwise the heading closest to the viewport center does.  The
`manualScrollInProgress` early return is outside the claim and not modeled;
the initial fold accumulator models `minDistance = Infinity` with a first
comparison that always succeeds, realized by seeding the distance of the
first heading. -/
def handleScrollToc (headings : List TrackedHeading)
    (scrollTop windowHeight docHeight : ℚ) : Option String :=
  if scrollTop + windowHeight ≥ docHeight - 100 ∧ headings ≠ [] then
    (headings.getLast?).map TrackedHeading.id
  else
    match headings with
    | [] => none
    | h :: rest =>
      let center := scrollTop + windowHeight * (1 / 2)
      (rest.foldl
        (fun (acc : ℚ × Option String) h2 =>
          let distance := |(h2.top + scrollTop) - center|
          if distance < acc.1 then (distance, some h2.id) else acc)
        (|(h.top + scrollTop) - center|, some h.id)).2

/-! ## Heading-ID generation in `script.js` (`HeadingGenerator`, lines 389-474)

`generateHeadingId` slugifies the heading text with a chain of regex
replacements and falls back to `heading-<index>` when the slug is empty or
already taken by an element in the document.  Strings are processed as
character lists. -/

/-- Character class of the JS regex `\w`: ASCII letters, digits and
underscore. -/
def jsWordChar (c : Char) : Bool :=
  c.isAlpha || c.isDigit || c = '_'

/-- Character class of the JS regex `\s`, restricted to the ASCII
whitespace characters that can occur in heading text. -/
def jsSpaceChar (c : Char) : Bool :=
  c = ' ' || c = '\t' || c = '\n' || c = '\r' || c = '\x0b' || c = '\x0c'

/-- Replace every maximal run of characters satisfying `p` by the single
character `repl`.  `inRun` records whether the previous character was part
of a run.  This is the effect of a global regex replace of `p+`. -/
def collapseRuns (p : Char → Bool) (repl : Char) : Bool → List Char → List Char
  | _, [] => []
  | inRun, c :: rest =>
    if p c then
      if inRun then collapseRuns p repl true rest
      else repl :: collapseRuns p repl true rest
    else c :: collapseRuns p repl false rest

/-- JS `String.prototype.trim`: strip leading and trailing whitespace. -/
def jsTrim (cs : List Char) : List Char :=
  ((cs.dropWhile jsSpaceChar).reverse.dropWhile jsSpaceChar).reverse

/-- The slugification chain of `HeadingGenerator.generateHeadingId`
(`script.js` lines 450-457): lower-case, drop characters other than `\w`,
`\s` and `-`, turn whitespace runs into single hyphens, collapse hyphen
runs (the global replace of two-or-more hyphens leaves single hyphens
untouched and maps longer runs to one hyphen, which is exactly run
collapsing), trim, and truncate to 50 characters. -/
def slugify (text : String) : String :=
  let cs := text.data.map Char.toLower
  let cs := cs.filter (fun c => jsWordChar c || jsSpaceChar c || c = '-')
  let cs := collapseRuns jsSpaceChar '-' false cs
  let cs := collapseRuns (fun c => c = '-') '-' false cs
  String.mk ((jsTrim cs).take 50)

/-- Embedding of `HeadingGenerator.generateHeadingId` (`script.js` lines
450-464).  `domIds` is the set of element ids present in the document at
call time (`getElementById` returns an element exactly when the id is in
it).  The fallback `heading-<index>` is returned without any further
uniqueness check. -/
def generateHeadingId (text : String) (index : Nat) (domIds : List String) : String :=
  let id := slugify text
  if id = "" ∨ id ∈ domIds then "heading-" ++ Nat.repr index else id

/-- The id-assignment loop of `HeadingGenerator.generateTOC` (`script.js`
lines 423-426) for headings that start without ids: each heading receives
`generateHeadingId` of its text and position, and the id becomes visible to
`getElementById` for the following headings. -/
def assignHeadingIds (texts : List String) (index : Nat) (domIds : List String) :
    List String :=
  match texts with
  | [] => []
  | t :: rest =>
    let id := generateHeadingId t index domIds
    id :: assignHeadingIds rest (index + 1) (domIds ++ [id])

/-- Ids produced by `HeadingGenerator.generateTOC` on a document whose only
ids are the ones the generator itself assigns. -/
def generateTOCIds (texts : List String) : List String :=
  assignHeadingIds texts 0 []

/-! ## Hierarchical TOC structure (`js/toc.js`, `HeadingGenerator.buildTOCStructure`, lines 86-119)

A heading is its id, its text and its level (the digit of the `hN` tag).
`buildTOCStructure` walks the headings keeping a stack of open items; a new
heading pops every stack entry of level greater than or equal to its own,
becomes a child of the remaining top (or a top-level item) and is pushed.
The JavaScript mutates the `children` arrays of items already placed; the
embedding accumulates the children of each open stack frame and attaches
the finished item to its parent when the frame is popped, which yields the
same final arrays. -/

/-- A heading as consumed by `buildTOCStructure`. -/
structure HeadingInfo where
  id : String
  text : String
  level : Nat
  deriving DecidableEq

/-- A node of the hierarchical TOC structure. -/
inductive TOCItem where
  | node (id text : String) (level : Nat) (children : List TOCItem)

/-- The heading data carried by a TOC item. -/
def TOCItem.info : TOCItem → HeadingInfo
  | .node i t l _ => ⟨i, t, l⟩

/-- The level of a TOC item. -/
def TOCItem.levelOf : TOCItem → Nat
  | .node _ _ l _ => l

/-- The children of a TOC item. -/
def TOCItem.childrenOf : TOCItem → List TOCItem
  | .node _ _ _ cs => cs

mutual

/-- Preorder flattening of a TOC item: the item itself, then its children. -/
def TOCItem.flat : TOCItem → List HeadingInfo
  | .node i t l cs => ⟨i, t, l⟩ :: flatForest cs

/-- Preorder flattening of a list of TOC items. -/
def flatForest : List TOCItem → List HeadingInfo
  | [] => []
  | x :: xs => x.flat ++ flatForest xs

end

/-- Hierarchy invariant: every child of every item has a level strictly
greater than its parent. -/
inductive TOCItem.WellLeveled : TOCItem → Prop where
  | node (i t : String) (l : Nat) (cs : List TOCItem)
      (hlt : ∀ c ∈ cs, l < TOCItem.levelOf c)
      (hwl : ∀ c ∈ cs, TOCItem.WellLeveled c) :
      TOCItem.WellLeveled (.node i t l cs)

/-- An open item on the `buildTOCStructure` stack: its heading data plus
the children attached to it so far. -/
structure TOCFrame where
  id : String
  text : String
  level : Nat
  childrenAcc : List TOCItem

/-- Close a stack frame into a finished TOC item. -/
def TOCFrame.close (f : TOCFrame) : TOCItem :=
  .node f.id f.text f.level f.childrenAcc

/-- The `while` loop of `buildTOCStructure` (`js/toc.js` lines 103-105):
pop frames whose level is at least `lvl`; each popped frame becomes a child
of the frame below it, or a finished top-level item when the stack empties.
The stack is kept top-first. -/
def popGE (lvl : Nat) (tops : List TOCItem) : List TOCFrame → List TOCItem × List TOCFrame
  | [] => (tops, [])
  | f :: rest =>
    if lvl ≤ f.level then
      match rest with
      | [] => (tops ++ [f.close], [])
      | g :: gs => popGE lvl tops ({ g with childrenAcc := g.childrenAcc ++ [f.close] } :: gs)
    else (tops, f :: rest)
termination_by stack => stack.length

/-- One iteration of the `forEach` of `buildTOCStructure` (`js/toc.js`
lines 92-116): pop conflicting frames, then push the new heading as an open
frame with no children yet. -/
def stepTOC (s : List TOCItem × List TOCFrame) (h : HeadingInfo) :
    List TOCItem × List TOCFrame :=
  let (tops, stack) := popGE h.level s.1 s.2
  (tops, ⟨h.id, h.text, h.level, []⟩ :: stack)

/-- Embedding of `HeadingGenerator.buildTOCStructure` (`js/toc.js` lines
86-119): fold the headings through `stepTOC` and close the frames that
remain open at the end (every frame level is at least 0, so `popGE 0`
closes them all). -/
def buildTOCStructure (headings : List HeadingInfo) : List TOCItem :=
  let s := headings.foldl stepTOC ([], [])
  (popGE 0 s.1 s.2).1

/-- A rendered TOC entry of `HeadingGenerator.generateTOC` in `script.js`
(lines 423-438): the link target, link text, `data-heading-id` attribute
and class of the `a` element created for one heading. -/
structure TocEntry where
  href : String
  text : String
  dataHeadingId : String
  className : String
  deriving DecidableEq

/-- The entry built for one heading by the `forEach` of `generateTOC`
(`script.js` lines 428-437): `href` is `'#' + heading.id`, the text is the
heading text, and the class is `toc-` plus the lower-cased tag name. -/
def tocEntryFor (h : HeadingInfo) : TocEntry :=
  ⟨"#" ++ h.id, h.text, h.id, "toc-h" ++ Nat.repr h.level⟩

/-- The list of entries appended to the TOC list element by `generateTOC`
(`script.js` lines 406-441), one per heading in document order. -/
def generateTOCEntries (headings : List HeadingInfo) : List TocEntry :=
  headings.map tocEntryFor

/-! ## Helper lemmas -/

/-- Applying a theme records that theme as current. -/
theorem applyTheme_currentTheme (theme : String) (s : TMState) :
    (applyTheme theme s).currentTheme = theme := by
  simp only [applyTheme, updateToggleUI]

/-- Applying a theme sets `aria-checked` from the theme comparison. -/
theorem applyTheme_ariaChecked (theme : String) (s : TMState) :
    (applyTheme theme s).ariaChecked = if theme = "dark" then "true" else "false" := by
  simp only [applyTheme, updateToggleUI]

/-- A non-dark theme clears the `dark` class. -/
theorem applyTheme_htmlDark_of_ne (theme : String) (s : TMState) (h : theme ≠ "dark") :
    (applyTheme theme s).htmlDark = false := by
  simp only [applyTheme, updateToggleUI, if_neg h]

/-! ## C5: the storage wrapper recovers from all failures -/

/-- Claim C5: the storage wrapper's `get`, `set` and `remove` never throw;
when the underlying `localStorage` access throws, `get` returns `null` and
`set`/`remove` return `false`, while on success `set` and `remove` return
`true` (and `get` passes the read value through). -/
theorem c5_storage_never_throws :
    (∀ r : JsResult (Option String), (storageGet r).isOk = true) ∧
    (∀ r : JsResult Unit, (storageSet r).isOk = true) ∧
    (∀ r : JsResult Unit, (storageRemove r).isOk = true) ∧
    storageGet .thrown = .ok none ∧
    (∀ v, storageGet (.ok v) = .ok v) ∧
    storageSet .thrown = .ok false ∧
    (∀ u, storageSet (.ok u) = .ok true) ∧
    storageRemove .thrown = .ok false ∧
    (∀ u, storageRemove (.ok u) = .ok true) := by
  refine ⟨fun r => ?_, fun r => ?_, fun r => ?_, rfl, fun v => rfl, rfl, fun u => rfl,
    rfl, fun u => rfl⟩ <;> cases r <;> rfl

/-! ## C10: the theme manager degrades safely on corrupted preferences -/

/-- Claim C10: for every theme string other than `'dark'` (in particular
any corrupted value read from storage), `applyTheme` removes the `dark`
class and sets `aria-checked` to `'false'`, and a subsequent `toggleTheme`
from any current state always yields `'light'` or `'dark'`. -/
theorem c10_corrupted_theme_degrades (t : String) (s : TMState) (ht : t ≠ "dark") :
    (applyTheme t s).htmlDark = false ∧
    (applyTheme t s).ariaChecked = "false" ∧
    (∀ (s2 : TMState) (st : Storage),
      (toggleTheme s2 st).1.currentTheme = "light" ∨
      (toggleTheme s2 st).1.currentTheme = "dark") := by
  refine ⟨applyTheme_htmlDark_of_ne t s ht, ?_, ?_⟩
  · rw [applyTheme_ariaChecked, if_neg ht]
  · intro s2 st
    unfold toggleTheme
    set s1 := if s2.isVibeMode then exitVibeMode s2 else s2 with hs1
    by_cases h : s1.currentTheme = "light"
    · right
      simp [applyTheme_currentTheme, h]
    · left
      simp [applyTheme_currentTheme, h]

/-- Witness for C10 at the corrupted saved value `'blue'`. -/
theorem c10_corrupted_theme_degrades_witness :
    ("blue" ≠ "dark") ∧
    ((applyTheme "blue"
        ⟨"light", "light", false, false, [], "false", false⟩).htmlDark = false ∧
      (applyTheme "blue"
        ⟨"light", "light", false, false, [], "false", false⟩).ariaChecked = "false" ∧
      (∀ (s2 : TMState) (st : Storage),
        (toggleTheme s2 st).1.currentTheme = "light" ∨
        (toggleTheme s2 st).1.currentTheme = "dark")) :=
  ⟨by decide,
   c10_corrupted_theme_degrades "blue"
     ⟨"light", "light", false, false, [], "false", false⟩ (by decide)⟩

/-! ## C8: the TOC panel open/close state machine -/

/-- Claim C8: `openTOC` sets the open flag and `aria-expanded='true'`,
`closeTOC` clears the flag and sets `aria-expanded='false'`, `toggleTOC`
performs the opposite transition from any state (so two toggles restore the
flag), and after each operation `aria-expanded` equals the string form of
the open flag. -/
theorem c8_toc_panel_toggle (width width2 : Nat) (s : TOCPanelState) :
    ((openTOC width s).isOpen = true ∧ (openTOC width s).ariaExpanded = "true") ∧
    ((closeTOC s).isOpen = false ∧ (closeTOC s).ariaExpanded = "false") ∧
    ((toggleTOC width s).isOpen = !s.isOpen) ∧
    ((toggleTOC width2 (toggleTOC width s)).isOpen = s.isOpen) ∧
    ((toggleTOC width s).ariaExpanded =
      if (toggleTOC width s).isOpen then "true" else "false") ∧
    ((openTOC width s).ariaExpanded =
      if (openTOC width s).isOpen then "true" else "false") ∧
    ((closeTOC s).ariaExpanded =
      if (closeTOC s).isOpen then "true" else "false") := by
  have hopen : ∀ (w : Nat) (x : TOCPanelState),
      (openTOC w x).isOpen = true ∧ (openTOC w x).ariaExpanded = "true" := by
    intro w x
    unfold openTOC
    split <;> exact ⟨rfl, rfl⟩
  have hclose : ∀ x : TOCPanelState,
      (closeTOC x).isOpen = false ∧ (closeTOC x).ariaExpanded = "false" := by
    intro x
    exact ⟨rfl, rfl⟩
  have htoggle : ∀ (w : Nat) (x : TOCPanelState), (toggleTOC w x).isOpen = !x.isOpen := by
    intro w x
    unfold toggleTOC
    by_cases h : x.isOpen = true
    · simp [h, (hclose x).1]
    · have h' : x.isOpen = false := by
        cases hx : x.isOpen
        · rfl
        · exact absurd hx h
      simp [h', (hopen w x).1]
  refine ⟨hopen width s, hclose s, htoggle width s, ?_, ?_, ?_, ?_⟩
  · rw [htoggle width2 (toggleTOC width s), htoggle width s, Bool.not_not]
  · unfold toggleTOC
    by_cases h : s.isOpen = true
    · simp [h, (hclose s).1, (hclose s).2]
    · simp [h, (hopen width s).1, (hopen width s).2]
  · simp [(hopen width s).1, (hopen width s).2]
  · simp [(hclose s).1, (hclose s).2]

/-! ## C2: vibe theme round trip -/

/-- Removing a property makes it unreadable. -/
theorem getItem_removeProp_self (k : String) (style : List (String × String)) :
    getItem k (removeProp k style) = none := by
  induction style with
  | nil => rfl
  | cons kv rest ih =>
    by_cases h : kv.1 = k
    · simpa [removeProp, h] using ih
    · simpa [removeProp, getItem, h] using ih

/-- Removing some property preserves the absence of any property. -/
theorem getItem_removeProp_none (k k2 : String) (style : List (String × String))
    (h : getItem k style = none) : getItem k (removeProp k2 style) = none := by
  induction style with
  | nil => rfl
  | cons kv rest ih =>
    by_cases hk : kv.1 = k
    · simp [getItem, hk] at h
    · have hrest : getItem k rest = none := by simpa [getItem, hk] using h
      by_cases h2 : kv.1 = k2
      · simpa [removeProp, h2] using ih hrest
      · simpa [removeProp, getItem, hk, h2] using ih hrest

/-- A fold of property removals preserves the absence of any property. -/
theorem getItem_foldl_removeProp_none (k : String) (props : List String)
    (style : List (String × String)) (h : getItem k style = none) :
    getItem k (props.foldl (fun st p => removeProp p st) style) = none := by
  induction props generalizing style with
  | nil => simpa using h
  | cons p rest ih => exact ih _ (getItem_removeProp_none k p style h)

/-- After removing every property of a list, none of them is readable. -/
theorem getItem_foldl_removeProp (k : String) (props : List String)
    (style : List (String × String)) (hk : k ∈ props) :
    getItem k (props.foldl (fun st p => removeProp p st) style) = none := by
  induction props generalizing style with
  | nil => cases hk
  | cons p rest ih =>
    rcases List.mem_cons.mp hk with h | h
    · subst h
      exact getItem_foldl_removeProp_none k rest _ (getItem_removeProp_self k style)
    · exact ih _ h

/-- Applying a theme does not touch the inline custom properties. -/
theorem applyTheme_rootStyle (theme : String) (s : TMState) :
    (applyTheme theme s).rootStyle = s.rootStyle := by
  simp only [applyTheme, updateToggleUI]
  split <;> rfl

/-- What `exitVibeMode` does from inside vibe mode: restores the original
theme, clears the flag, and folds `removeProperty` over the fixed list. -/
theorem exitVibeMode_parts (s : TMState) (h : s.isVibeMode = true) :
    (exitVibeMode s).currentTheme = s.originalTheme ∧
    (exitVibeMode s).isVibeMode = false ∧
    (exitVibeMode s).rootStyle =
      vibeProperties.foldl (fun st k => removeProp k st) s.rootStyle := by
  unfold exitVibeMode
  rw [if_neg (by simp [h])]
  refine ⟨by simp [applyTheme_currentTheme], rfl, by simp [applyTheme_rootStyle]⟩

/-- A light-mode base state of the theme manager, used as a concrete
starting point. -/
def tmLight : TMState :=
  { currentTheme := "light", originalTheme := "light", isVibeMode := false,
    htmlDark := false, rootStyle := [], ariaChecked := "false", sliderDark := false }

/-- Counterexample to claim C2 as stated: a vibe palette may set a CSS
custom property outside the fixed list that `exitVibeMode` clears, and that
property survives the exit.  Applying the palette
`[("--vibe-extra", "red")]` over the light base state and then exiting vibe
mode leaves `--vibe-extra` set on the document element, so the exit does
not remove every property the palette set. -/
theorem c2_roundtrip_counterexample :
    getItem "--vibe-extra"
      (exitVibeMode (applyVibeTheme [("--vibe-extra", "red")] tmLight)).rootStyle
      = some "red" ∧
    (exitVibeMode (applyVibeTheme [("--vibe-extra", "red")] tmLight)).isVibeMode = false := by
  constructor <;> rfl

/-- Claim C2 as amended: for every base state outside vibe mode and every
palette whose properties all belong to the fixed `vibeProperties` list (as
the palettes shipped with the site do), `applyVibeTheme` followed by
`exitVibeMode` restores the current theme, leaves vibe mode off, and
removes every property the palette set. -/
theorem c2_vibe_roundtrip_amended (s : TMState) (colors : List (String × String))
    (hnv : s.isVibeMode = false)
    (hdom : ∀ kv ∈ colors, kv.1 ∈ vibeProperties) :
    (exitVibeMode (applyVibeTheme colors s)).currentTheme = s.currentTheme ∧
    (exitVibeMode (applyVibeTheme colors s)).isVibeMode = false ∧
    ∀ kv ∈ colors,
      getItem kv.1 (exitVibeMode (applyVibeTheme colors s)).rootStyle = none := by
  have hv : (applyVibeTheme colors s).isVibeMode = true := by
    simp [applyVibeTheme, hnv]
  have ho : (applyVibeTheme colors s).originalTheme = s.currentTheme := by
    simp [applyVibeTheme, hnv]
  obtain ⟨hc, hm, hr⟩ := exitVibeMode_parts (applyVibeTheme colors s) hv
  refine ⟨by rw [hc, ho], hm, ?_⟩
  intro kv hkv
  rw [hr]
  exact getItem_foldl_removeProp kv.1 vibeProperties _ (hdom kv hkv)

/-- Witness for the amended C2 at a palette contained in the cleared
property list, applied over the light base state. -/
theorem c2_vibe_roundtrip_amended_witness :
    (tmLight.isVibeMode = false) ∧
    (∀ kv ∈ [("--background", "#000"), ("--accent", "#f0f")], kv.1 ∈ vibeProperties) ∧
    ((exitVibeMode (applyVibeTheme [("--background", "#000"), ("--accent", "#f0f")]
        tmLight)).currentTheme = tmLight.currentTheme ∧
      (exitVibeMode (applyVibeTheme [("--background", "#000"), ("--accent", "#f0f")]
        tmLight)).isVibeMode = false ∧
      ∀ kv ∈ [("--background", "#000"), ("--accent", "#f0f")],
        getItem kv.1 (exitVibeMode (applyVibeTheme
          [("--background", "#000"), ("--accent", "#f0f")] tmLight)).rootStyle = none) :=
  ⟨rfl, by decide,
   c2_vibe_roundtrip_amended tmLight [("--background", "#000"), ("--accent", "#f0f")]
     rfl (by decide)⟩

/-! ## C4: only the light/dark preference is persisted -/

/-- Reading after a write: only the written key changes. -/
theorem getItem_setItem (k key value : String) (st : Storage) :
    getItem k (setItem key value st) = if key = k then some value else getItem k st := by
  induction st with
  | nil => simp [setItem, getItem]
  | cons kv rest ih =>
    rcases kv with ⟨k1, v1⟩
    by_cases h : k1 = key
    · subst h
      by_cases hk : k1 = k
      · subst hk
        simp [setItem, getItem]
      · simp [setItem, getItem, hk]
    · by_cases hk : k1 = k
      · subst hk
        have hne : ¬ k1 = key := h
        have hne2 : ¬ key = k1 := fun he => h he.symm
        simp [setItem, getItem, hne, hne2]
      · simp [setItem, getItem, h, hk, ih]

/-- A DOM-only operation lifted to the full (state, storage) pair: the
embedded JavaScript for these operations contains no `localStorage` access,
so the storage component passes through untouched. -/
def pureDomOp (f : α → α) (a : α) (st : Storage) : α × Storage :=
  (f a, st)

/-- Claim C4: `toggleTheme` writes exactly the key `'theme'` — every other
key reads the same before and after, both in `script.js` (direct
`localStorage.setItem`) and in `js/toc.js` (through the fallible
`storage.set` wrapper) — and after a successful toggle the stored value is
the new current theme.  Every other manager operation (vibe palette
application, vibe cycling and reset, TOC open/close/toggle, bio
expand/collapse) performs no storage access at all: lifted to the
(state, storage) pair each one is a `pureDomOp`, which leaves the store
equal to what it was. -/
theorem c4_only_theme_key_persisted (s : TMState) (st : Storage) (k : String)
    (hk : k ≠ "theme") (ok : JsResult Unit) (colors : List (String × String))
    (v : VCState) (width : Nat) (p : TOCPanelState) (bio : List String) :
    getItem k (toggleTheme s st).2 = getItem k st ∧
    getItem "theme" (toggleTheme s st).2 = some (toggleTheme s st).1.currentTheme ∧
    getItem k (toggleThemeSafe ok s st).2 = getItem k st ∧
    (pureDomOp (applyVibeTheme colors) s st).2 = st ∧
    (pureDomOp cycleToNextTheme v st).2 = st ∧
    (pureDomOp showVibeTheme v st).2 = st ∧
    (pureDomOp vibeReset v st).2 = st ∧
    (pureDomOp (openTOC width) p st).2 = st ∧
    (pureDomOp closeTOC p st).2 = st ∧
    (pureDomOp (toggleTOC width) p st).2 = st ∧
    (pureDomOp expandBio bio st).2 = st := by
  refine ⟨?_, ?_, ?_, rfl, rfl, rfl, rfl, rfl, rfl, rfl, rfl⟩
  · unfold toggleTheme
    simp only
    rw [getItem_setItem, if_neg (fun h => hk h.symm)]
  · unfold toggleTheme
    simp only
    rw [getItem_setItem, if_pos rfl, applyTheme_currentTheme]
  · unfold toggleThemeSafe
    cases ok
    · simp only
      rw [getItem_setItem, if_neg (fun h => hk h.symm)]
    · rfl

/-- Witness for C4 at a store holding an unrelated key. -/
theorem c4_only_theme_key_persisted_witness :
    ("other" ≠ "theme") ∧
    (getItem "other" (toggleTheme tmLight [("other", "1")]).2
        = getItem "other" [("other", "1")] ∧
      getItem "theme" (toggleTheme tmLight [("other", "1")]).2
        = some (toggleTheme tmLight [("other", "1")]).1.currentTheme ∧
      getItem "other" (toggleThemeSafe (.ok ()) tmLight [("other", "1")]).2
        = getItem "other" [("other", "1")] ∧
      (pureDomOp (applyVibeTheme []) tmLight [("other", "1")]).2 = [("other", "1")] ∧
      (pureDomOp cycleToNextTheme ⟨[], 0, false, [], true, false, "", tmLight⟩
        [("other", "1")]).2 = [("other", "1")] ∧
      (pureDomOp showVibeTheme ⟨[], 0, false, [], true, false, "", tmLight⟩
        [("other", "1")]).2 = [("other", "1")] ∧
      (pureDomOp vibeReset ⟨[], 0, false, [], true, false, "", tmLight⟩
        [("other", "1")]).2 = [("other", "1")] ∧
      (pureDomOp (openTOC 1280) ⟨false, "false", [], [], [], []⟩
        [("other", "1")]).2 = [("other", "1")] ∧
      (pureDomOp closeTOC ⟨false, "false", [], [], [], []⟩
        [("other", "1")]).2 = [("other", "1")] ∧
      (pureDomOp (toggleTOC 1280) ⟨false, "false", [], [], [], []⟩
        [("other", "1")]).2 = [("other", "1")] ∧
      (pureDomOp expandBio [] [("other", "1")]).2 = [("other", "1")]) :=
  ⟨by decide,
   c4_only_theme_key_persisted tmLight [("other", "1")] "other" (by decide) (.ok ())
     [] ⟨[], 0, false, [], true, false, "", tmLight⟩ 1280
     ⟨false, "false", [], [], [], []⟩ []⟩

/-! ## C3: at most one special theme class on the body -/

/-- Membership after a single class removal. -/
theorem mem_removeClass {a c : String} {l : List String} :
    a ∈ removeClass c l ↔ a ∈ l ∧ a ≠ c := by
  simp [removeClass, List.mem_filter]

/-- Membership after removing a list of classes. -/
theorem mem_removeClasses {a : String} {cs l : List String} (h : a ∈ removeClasses cs l) :
    a ∈ l ∧ a ∉ cs := by
  induction cs generalizing l with
  | nil => exact ⟨h, by simp⟩
  | cons c rest ih =>
    have h2 : a ∈ removeClasses rest (removeClass c l) := h
    obtain ⟨hm, hn⟩ := ih h2
    obtain ⟨hml, hne⟩ := mem_removeClass.mp hm
    exact ⟨hml, by simp [hne, hn]⟩

/-- After removing every class in `cs`, filtering for `cs` finds nothing. -/
theorem filter_removeClasses (cs l : List String) :
    (removeClasses cs l).filter (fun c => decide (c ∈ cs)) = [] := by
  rw [List.filter_eq_nil_iff]
  intro a ha
  simp only [decide_eq_true_eq]
  exact (mem_removeClasses ha).2

/-- Every class produced by the `if`/`else if` chain of `showVibeTheme` is
one of the special theme classes. -/
theorem themeClassFor_mem (name c : String) (h : themeClassFor name = some c) :
    c ∈ specialThemeClasses := by
  unfold themeClassFor at h
  split_ifs at h
  all_goals obtain rfl := Option.some.inj h
  all_goals decide

/-- Claim C3: after `showVibeTheme` (with themes loaded and a valid index)
the body carries exactly the special class matching the current theme name
(none when the name has no special class), and after `reset` it carries no
special class at all — in particular at most one special class is ever
present. -/
theorem c3_at_most_one_theme_class (s : VCState) (hl : s.isLoaded = true)
    (hidx : s.currentThemeIndex < s.themes.length) :
    (showVibeTheme s).bodyClasses.filter (fun c => decide (c ∈ specialThemeClasses))
      = (themeClassFor (s.themes.get ⟨s.currentThemeIndex, hidx⟩).name).toList ∧
    (vibeReset s).bodyClasses.filter (fun c => decide (c ∈ specialThemeClasses))
      = [] := by
  constructor
  · have hlen : ¬ (¬ s.isLoaded = true ∨ s.themes.length = 0) := by
      push_neg
      exact ⟨hl, by omega⟩
    have hget : s.themes.get? s.currentThemeIndex
        = some (s.themes.get ⟨s.currentThemeIndex, hidx⟩) := List.get?_eq_get hidx
    unfold showVibeTheme
    rw [if_neg hlen, hget]
    simp only
    cases hthm : themeClassFor (s.themes.get ⟨s.currentThemeIndex, hidx⟩).name with
    | none => simpa [hthm] using filter_removeClasses specialThemeClasses s.bodyClasses
    | some c =>
      have hc : c ∈ specialThemeClasses := themeClassFor_mem _ c hthm
      have hnotin : c ∉ removeClasses specialThemeClasses s.bodyClasses := by
        intro hmem
        exact (mem_removeClasses hmem).2 hc
      simp only [hthm, addClass, if_neg hnotin, List.filter_append,
        filter_removeClasses, List.nil_append, Option.toList]
      simp [hc]
  · exact filter_removeClasses specialThemeClasses s.bodyClasses

/-- A loaded vibe state showing the Synthwave Sunset theme. -/
def vcSynth : VCState :=
  { themes := [⟨"Synthwave Sunset", [("--background", "#1a0033")]⟩],
    currentThemeIndex := 0, isLoaded := true, bodyClasses := ["loaded"],
    errorHidden := false, panelVisible := false, vibeTitle := "", tm := tmLight }

/-- Witness for C3 at the loaded Synthwave state. -/
theorem c3_at_most_one_theme_class_witness :
    (vcSynth.isLoaded = true) ∧ (vcSynth.currentThemeIndex < vcSynth.themes.length) ∧
    ((showVibeTheme vcSynth).bodyClasses.filter
        (fun c => decide (c ∈ specialThemeClasses))
      = (themeClassFor (vcSynth.themes.get ⟨vcSynth.currentThemeIndex, by decide⟩).name).toList ∧
    (vibeReset vcSynth).bodyClasses.filter (fun c => decide (c ∈ specialThemeClasses))
      = []) :=
  ⟨rfl, by decide, c3_at_most_one_theme_class vcSynth rfl (by decide)⟩

/-! ## C9: vibe cycling stays in range and wraps -/

/-- `showVibeTheme` changes neither the theme list nor the index. -/
theorem showVibeTheme_themes_index (s : VCState) :
    (showVibeTheme s).themes = s.themes ∧
    (showVibeTheme s).currentThemeIndex = s.currentThemeIndex := by
  unfold showVibeTheme
  split
  · exact ⟨rfl, rfl⟩
  · cases hget : s.themes.get? s.currentThemeIndex with
    | none => simp [hget]
    | some th =>
      cases hthm : themeClassFor th.name with
      | none => simp [hget, hthm]
      | some c => simp [hget, hthm]

/-- One cycle advances the index by one modulo the theme count and keeps
the theme list. -/
theorem cycleToNextTheme_index (s : VCState) :
    (cycleToNextTheme s).themes = s.themes ∧
    (cycleToNextTheme s).currentThemeIndex
      = (s.currentThemeIndex + 1) % s.themes.length := by
  unfold cycleToNextTheme
  obtain ⟨ht, hi⟩ := showVibeTheme_themes_index
    { s with currentThemeIndex := (s.currentThemeIndex + 1) % s.themes.length }
  exact ⟨ht, hi⟩

/-- Iterating the cycle `k+1` times advances the index by `k+1` modulo the
theme count. -/
theorem cycleToNextTheme_iterate (k : Nat) (s : VCState) :
    (cycleToNextTheme^[k + 1] s).themes = s.themes ∧
    (cycleToNextTheme^[k + 1] s).currentThemeIndex
      = (s.currentThemeIndex + (k + 1)) % s.themes.length := by
  induction k generalizing s with
  | zero =>
    simpa using cycleToNextTheme_index s
  | succ n ih =>
    have hstep : cycleToNextTheme^[n + 1 + 1] s
        = cycleToNextTheme^[n + 1] (cycleToNextTheme s) := by
      rw [Function.iterate_succ_apply]
    obtain ⟨ht1, hi1⟩ := cycleToNextTheme_index s
    obtain ⟨ht2, hi2⟩ := ih (cycleToNextTheme s)
    refine ⟨by rw [hstep, ht2, ht1], ?_⟩
    rw [hstep, hi2, ht1, hi1, Nat.mod_add_mod]
    ring_nf

/-- Claim C9: with a loaded non-empty theme list, the index stays in
`[0, n)`, each cycle advances it by one modulo `n`, `n` consecutive cycles
return to the starting index, and `reset` returns the index to `0`. -/
theorem c9_cycle_wraps (s : VCState) (n : Nat) (hn : s.themes.length = n)
    (hpos : 0 < n) (hidx : s.currentThemeIndex < n) :
    (cycleToNextTheme s).currentThemeIndex = (s.currentThemeIndex + 1) % n ∧
    (cycleToNextTheme s).currentThemeIndex < n ∧
    (cycleToNextTheme^[n] s).currentThemeIndex = s.currentThemeIndex ∧
    (vibeReset s).currentThemeIndex = 0 := by
  obtain ⟨ht, hi⟩ := cycleToNextTheme_index s
  refine ⟨by rw [hi, hn], ?_, ?_, rfl⟩
  · rw [hi, hn]
    exact Nat.mod_lt _ hpos
  · have hn1 : n = (n - 1) + 1 := by omega
    obtain ⟨_, hit⟩ := cycleToNextTheme_iterate (n - 1) s
    rw [hn1, hit, hn, ← hn1, Nat.add_mod_right]
    exact Nat.mod_eq_of_lt hidx

/-- A loaded two-theme vibe state at index 1. -/
def vcTwo : VCState :=
  { themes := [⟨"Synthwave Sunset", []⟩, ⟨"Park Ranger", []⟩],
    currentThemeIndex := 1, isLoaded := true, bodyClasses := [],
    errorHidden := true, panelVisible := true, vibeTitle := "", tm := tmLight }

/-- Witness for C9 at the two-theme state. -/
theorem c9_cycle_wraps_witness :
    (vcTwo.themes.length = 2) ∧ (0 < 2) ∧ (vcTwo.currentThemeIndex < 2) ∧
    ((cycleToNextTheme vcTwo).currentThemeIndex = (vcTwo.currentThemeIndex + 1) % 2 ∧
      (cycleToNextTheme vcTwo).currentThemeIndex < 2 ∧
      (cycleToNextTheme^[2] vcTwo).currentThemeIndex = vcTwo.currentThemeIndex ∧
      (vibeReset vcTwo).currentThemeIndex = 0) :=
  ⟨by decide, by decide, by decide, c9_cycle_wraps vcTwo 2 (by decide) (by decide) (by decide)⟩

/-! ## C7: active-section highlighting at the page bottom -/

/-- Soundness of the threshold loop: any heading it selects is in the list
and sits at or above the threshold. -/
theorem activeFromThreshold_sound (threshold : ℚ) (headings : List TrackedHeading)
    (i : String) (h : activeFromThreshold threshold headings = some i) :
    ∃ hd ∈ headings, hd.id = i ∧ hd.top ≤ threshold := by
  induction headings with
  | nil => cases h
  | cons hd rest ih =>
    unfold activeFromThreshold at h
    by_cases htop : hd.top ≤ threshold
    · rw [if_pos htop] at h
      cases hrec : activeFromThreshold threshold rest with
      | some j =>
        rw [hrec] at h
        obtain ⟨hd2, hmem, hid, hle⟩ := ih (hrec.trans (by injection h with h2; rw [h2]))
        exact ⟨hd2, List.mem_cons_of_mem _ hmem, hid, hle⟩
      | none =>
        rw [hrec] at h
        injection h with h2
        exact ⟨hd, List.mem_cons_self _ _, h2, htop⟩
    · rw [if_neg htop] at h
      cases h

/-- Claim C7: for a non-empty heading list, whenever
`scrollTop + windowHeight >= documentHeight - 100` both scroll trackers
select the last heading; otherwise the `script.js` tracker selects a
heading of the list whose viewport top is at or above the
`windowHeight * 0.3` threshold (or none at all). -/
theorem c7_bottom_selects_last (headings : List TrackedHeading)
    (scrollTop windowHeight docHeight : ℚ) (hne : headings ≠ []) :
    (scrollTop + windowHeight ≥ docHeight - 100 →
      updateActiveHeading headings scrollTop windowHeight docHeight
        = some (headings.getLast hne).id ∧
      handleScrollToc headings scrollTop windowHeight docHeight
        = some (headings.getLast hne).id) ∧
    (¬ scrollTop + windowHeight ≥ docHeight - 100 →
      ∀ i, updateActiveHeading headings scrollTop windowHeight docHeight = some i →
        ∃ hd ∈ headings, hd.id = i ∧ hd.top ≤ windowHeight * (3 / 10)) := by
  have hlast : headings.getLast? = some (headings.getLast hne) :=
    List.getLast?_eq_getLast headings hne
  constructor
  · intro hb
    constructor
    · unfold updateActiveHeading
      rw [hlast]
      simp only [if_pos hb]
    · unfold handleScrollToc
      rw [if_pos ⟨hb, hne⟩, hlast]
      rfl
  · intro hb i hsel
    unfold updateActiveHeading at hsel
    rw [hlast] at hsel
    simp only [if_neg hb] at hsel
    exact activeFromThreshold_sound _ _ _ hsel

/-- Witness for C7 at a single tracked heading. -/
theorem c7_bottom_selects_last_witness :
    (([⟨"intro", (50 : ℚ)⟩] : List TrackedHeading) ≠ []) ∧
    (((0 : ℚ) + 800 ≥ 600 - 100 →
      updateActiveHeading [⟨"intro", (50 : ℚ)⟩] 0 800 600
        = some ((([⟨"intro", (50 : ℚ)⟩] : List TrackedHeading).getLast (by decide)).id) ∧
      handleScrollToc [⟨"intro", (50 : ℚ)⟩] 0 800 600
        = some ((([⟨"intro", (50 : ℚ)⟩] : List TrackedHeading).getLast (by decide)).id)) ∧
    (¬ (0 : ℚ) + 800 ≥ 600 - 100 →
      ∀ i, updateActiveHeading [⟨"intro", (50 : ℚ)⟩] 0 800 600 = some i →
        ∃ hd ∈ ([⟨"intro", (50 : ℚ)⟩] : List TrackedHeading),
          hd.id = i ∧ hd.top ≤ 800 * (3 / 10))) :=
  ⟨by decide, c7_bottom_selects_last [⟨"intro", (50 : ℚ)⟩] 0 800 600 (by decide)⟩

/-! ## C6: the generated TOC mirrors the heading list -/

/-- Flattening distributes over forest concatenation. -/
theorem flatForest_append (a b : List TOCItem) :
    flatForest (a ++ b) = flatForest a ++ flatForest b := by
  induction a with
  | nil => simp [flatForest]
  | cons x xs ih => simp [flatForest, ih]

/-- Preorder contribution of an open stack frame: its own heading followed
by the children collected so far. -/
def TOCFrame.flat (f : TOCFrame) : List HeadingInfo :=
  f.close.flat

/-- Preorder contribution of the whole stack, bottom frame first (the stack
list is kept top-first). -/
def flatStack : List TOCFrame → List HeadingInfo
  | [] => []
  | f :: rest => flatStack rest ++ f.flat

/-- Preorder contribution of an intermediate builder state. -/
def flatState (s : List TOCItem × List TOCFrame) : List HeadingInfo :=
  flatForest s.1 ++ flatStack s.2

/-- Unfolding `popGE` on the empty stack. -/
theorem popGE_nil (lvl : Nat) (tops : List TOCItem) : popGE lvl tops [] = (tops, []) := by
  simp [popGE]

/-- Unfolding `popGE` when the single remaining frame is popped. -/
theorem popGE_single (lvl : Nat) (tops : List TOCItem) (f : TOCFrame)
    (h : lvl ≤ f.level) : popGE lvl tops [f] = (tops ++ [f.close], []) := by
  simp [popGE, h]

/-- Unfolding `popGE` when the top frame is popped onto its parent. -/
theorem popGE_pop (lvl : Nat) (tops : List TOCItem) (f g : TOCFrame)
    (gs : List TOCFrame) (h : lvl ≤ f.level) :
    popGE lvl tops (f :: g :: gs)
      = popGE lvl tops ({ g with childrenAcc := g.childrenAcc ++ [f.close] } :: gs) := by
  rw [popGE.eq_def]
  simp [h]

/-- Unfolding `popGE` when the top frame survives. -/
theorem popGE_stop (lvl : Nat) (tops : List TOCItem) (f : TOCFrame)
    (rest : List TOCFrame) (h : ¬ lvl ≤ f.level) :
    popGE lvl tops (f :: rest) = (tops, f :: rest) := by
  rw [popGE.eq_def]
  simp [h]

/-- Popping frames rearranges the state without changing its preorder
contribution. -/
theorem popGE_flatState (lvl : Nat) (stack : List TOCFrame) (tops : List TOCItem) :
    flatState (popGE lvl tops stack) = flatForest tops ++ flatStack stack := by
  suffices H : ∀ (n : Nat) (stack : List TOCFrame) (tops : List TOCItem),
      stack.length = n →
      flatState (popGE lvl tops stack) = flatForest tops ++ flatStack stack by
    exact H stack.length stack tops rfl
  intro n
  induction n with
  | zero =>
    intro stack tops hn
    rw [List.length_eq_zero.mp hn, popGE_nil]
    simp [flatState, flatStack]
  | succ n ih =>
    intro stack tops hn
    cases stack with
    | nil => cases hn
    | cons f rest =>
      by_cases hl : lvl ≤ f.level
      · cases rest with
        | nil =>
          rw [popGE_single lvl tops f hl]
          simp [flatState, flatStack, flatForest_append, TOCFrame.flat, flatForest]
        | cons g gs =>
          have hlen : ({ g with childrenAcc := g.childrenAcc ++ [f.close] } :: gs).length
              = n := by
            simpa using Nat.succ_injective hn
          rw [popGE_pop lvl tops f g gs hl, ih _ tops hlen]
          simp [flatStack, TOCFrame.flat, TOCFrame.close, TOCItem.flat,
            flatForest_append, flatForest]
      · rw [popGE_stop lvl tops f rest hl]
        rfl

/-- One builder step appends exactly the new heading to the preorder. -/
theorem stepTOC_flatState (s : List TOCItem × List TOCFrame) (h : HeadingInfo) :
    flatState (stepTOC s h) = flatState s ++ [h] := by
  unfold stepTOC
  have hpop := popGE_flatState h.level s.2 s.1
  cases hps : popGE h.level s.1 s.2 with
  | mk tops stack =>
    rw [hps] at hpop
    simp only [flatState, flatStack] at hpop ⊢
    rw [show TOCFrame.flat ⟨h.id, h.text, h.level, []⟩ = [h] from by
      simp [TOCFrame.flat, TOCFrame.close, TOCItem.flat, flatForest]]
    rw [← List.append_assoc, hpop]

/-- Folding the headings through the builder accumulates them in order. -/
theorem foldl_stepTOC_flatState (hs : List HeadingInfo)
    (s : List TOCItem × List TOCFrame) :
    flatState (hs.foldl stepTOC s) = flatState s ++ hs := by
  induction hs generalizing s with
  | nil => simp
  | cons h rest ih =>
    rw [List.foldl_cons, ih (stepTOC s h), stepTOC_flatState]
    simp

/-- Closing every frame (level threshold 0) empties the stack. -/
theorem popGE_zero_stack (stack : List TOCFrame) (tops : List TOCItem) :
    (popGE 0 tops stack).2 = [] := by
  suffices H : ∀ (n : Nat) (stack : List TOCFrame) (tops : List TOCItem),
      stack.length = n → (popGE 0 tops stack).2 = [] by
    exact H stack.length stack tops rfl
  intro n
  induction n with
  | zero =>
    intro stack tops hn
    rw [List.length_eq_zero.mp hn, popGE_nil]
  | succ n ih =>
    intro stack tops hn
    cases stack with
    | nil => cases hn
    | cons f rest =>
      cases rest with
      | nil => rw [popGE_single 0 tops f (Nat.zero_le _)]
      | cons g gs =>
        have hlen : ({ g with childrenAcc := g.childrenAcc ++ [f.close] } :: gs).length
            = n := by
          simpa using Nat.succ_injective hn
        rw [popGE_pop 0 tops f g gs (Nat.zero_le _)]
        exact ih _ tops hlen

/-- The preorder flattening of the built TOC structure is exactly the input
heading list. -/
theorem buildTOCStructure_flat (headings : List HeadingInfo) :
    flatForest (buildTOCStructure headings) = headings := by
  unfold buildTOCStructure
  have hfold := foldl_stepTOC_flatState headings ([], [])
  cases hfs : headings.foldl stepTOC ([], []) with
  | mk tops stack =>
    rw [hfs] at hfold
    have hflat := popGE_flatState 0 stack tops
    have hstk := popGE_zero_stack stack tops
    simp only
    rw [show flatForest (popGE 0 tops stack).1
        = flatState (popGE 0 tops stack) from by
      cases hpop : popGE 0 tops stack with
      | mk t2 s2 =>
        rw [hpop] at hstk
        simp only at hstk
        subst hstk
        simp [flatState, flatStack]]
    rw [hflat]
    simpa [flatState, flatStack, flatForest] using hfold

/-- Invariant of an open frame: all children collected so far sit strictly
below it in the hierarchy and are themselves well-leveled. -/
def FrameOK (f : TOCFrame) : Prop :=
  (∀ c ∈ f.childrenAcc, f.level < c.levelOf) ∧ (∀ c ∈ f.childrenAcc, c.WellLeveled)

/-- Invariant of the builder stack (kept top-first): levels strictly
decrease from top to bottom and every frame satisfies `FrameOK`. -/
def StackOK (stack : List TOCFrame) : Prop :=
  stack.Chain' (fun a b => b.level < a.level) ∧ ∀ f ∈ stack, FrameOK f

/-- Invariant of a builder state: finished top-level items are well-leveled
and the stack is well-formed. -/
def StateOK (s : List TOCItem × List TOCFrame) : Prop :=
  (∀ x ∈ s.1, x.WellLeveled) ∧ StackOK s.2

/-- Closing a well-formed frame yields a well-leveled item. -/
theorem FrameOK.close_wellLeveled {f : TOCFrame} (h : FrameOK f) :
    f.close.WellLeveled :=
  TOCItem.WellLeveled.node f.id f.text f.level f.childrenAcc h.1 h.2

/-- Popping preserves the builder invariant, and the frame left on top of
the stack (if any) has level strictly below the popping threshold. -/
theorem popGE_ok (lvl : Nat) (stack : List TOCFrame) (tops : List TOCItem)
    (hok : StateOK (tops, stack)) :
    StateOK (popGE lvl tops stack) ∧
    (∀ f2 rest2, (popGE lvl tops stack).2 = f2 :: rest2 → f2.level < lvl) := by
  suffices H : ∀ (n : Nat) (stack : List TOCFrame) (tops : List TOCItem),
      stack.length = n → StateOK (tops, stack) →
      StateOK (popGE lvl tops stack) ∧
      (∀ f2 rest2, (popGE lvl tops stack).2 = f2 :: rest2 → f2.level < lvl) by
    exact H stack.length stack tops rfl hok
  intro n
  induction n with
  | zero =>
    intro stack tops hn hok
    rw [List.length_eq_zero.mp hn] at hok ⊢
    rw [popGE_nil]
    exact ⟨hok, fun f2 rest2 h2 => by cases h2⟩
  | succ n ih =>
    intro stack tops hn hok
    cases stack with
    | nil => cases hn
    | cons f rest =>
      by_cases hl : lvl ≤ f.level
      · have hfok : FrameOK f := hok.2.2 f (List.mem_cons_self _ _)
        cases rest with
        | nil =>
          rw [popGE_single lvl tops f hl]
          refine ⟨⟨?_, ⟨List.chain'_nil, by simp⟩⟩, fun f2 rest2 h2 => by cases h2⟩
          intro x hx
          rcases List.mem_append.mp hx with hx | hx
          · exact hok.1 x hx
          · rw [List.mem_singleton.mp hx]
            exact hfok.close_wellLeveled
        | cons g gs =>
          rw [popGE_pop lvl tops f g gs hl]
          have hlen : ({ g with childrenAcc := g.childrenAcc ++ [f.close] } :: gs).length
              = n := by
            simpa using Nat.succ_injective hn
          have hchain : (f :: g :: gs).Chain' (fun a b => b.level < a.level) := hok.2.1
          have hgf : g.level < f.level := (List.chain'_cons.mp hchain).1
          have hchain2 : (g :: gs).Chain' (fun a b => b.level < a.level) :=
            (List.chain'_cons.mp hchain).2
          have hgok : FrameOK g := hok.2.2 g (List.mem_cons_of_mem _ (List.mem_cons_self _ _))
          refine ih _ tops hlen ⟨hok.1, ?_, ?_⟩
          · rcases List.chain'_cons'.mp hchain2 with ⟨hhead, htail⟩
            exact List.chain'_cons'.mpr ⟨hhead, htail⟩
          · intro f2 hf2
            rcases List.mem_cons.mp hf2 with hf2 | hf2
            · subst hf2
              constructor
              · intro c hc
                rcases List.mem_append.mp hc with hc | hc
                · exact hgok.1 c hc
                · rw [List.mem_singleton.mp hc]
                  exact hgf
              · intro c hc
                rcases List.mem_append.mp hc with hc | hc
                · exact hgok.2 c hc
                · rw [List.mem_singleton.mp hc]
                  exact hfok.close_wellLeveled
            · exact hok.2.2 f2 (List.mem_cons_of_mem _ (List.mem_cons_of_mem _ hf2))
      · rw [popGE_stop lvl tops f rest hl]
        exact ⟨hok, fun f2 rest2 h2 => by
          injection h2 with h3 h4
          subst h3
          omega⟩

/-- One builder step preserves the invariant. -/
theorem stepTOC_ok (s : List TOCItem × List TOCFrame) (h : HeadingInfo)
    (hok : StateOK s) : StateOK (stepTOC s h) := by
  unfold stepTOC
  obtain ⟨hok2, htop⟩ := popGE_ok h.level s.2 s.1 ⟨hok.1, hok.2⟩
  cases hps : popGE h.level s.1 s.2 with
  | mk tops stack =>
    rw [hps] at hok2 htop
    refine ⟨hok2.1, ?_, ?_⟩
    · cases stack with
      | nil => simp
      | cons f2 rest2 =>
        exact List.chain'_cons.mpr ⟨htop f2 rest2 rfl, hok2.2.1⟩
    · intro f2 hf2
      rcases List.mem_cons.mp hf2 with hf2 | hf2
      · subst hf2
        exact ⟨by simp, by simp⟩
      · exact hok2.2.2 f2 hf2

/-- The builder invariant holds after folding any heading list. -/
theorem foldl_stepTOC_ok (hs : List HeadingInfo) (s : List TOCItem × List TOCFrame)
    (hok : StateOK s) : StateOK (hs.foldl stepTOC s) := by
  induction hs generalizing s with
  | nil => exact hok
  | cons h rest ih => exact ih (stepTOC s h) (stepTOC_ok s h hok)

/-- Every item of the built TOC structure is well-leveled: each child's
level strictly exceeds its parent's. -/
theorem buildTOCStructure_wellLeveled (headings : List HeadingInfo) :
    ∀ x ∈ buildTOCStructure headings, x.WellLeveled := by
  unfold buildTOCStructure
  have hok : StateOK (headings.foldl stepTOC ([], [])) :=
    foldl_stepTOC_ok headings ([], []) ⟨by simp, List.chain'_nil, by simp⟩
  cases hfs : headings.foldl stepTOC ([], []) with
  | mk tops stack =>
    rw [hfs] at hok
    obtain ⟨hok2, _⟩ := popGE_ok 0 stack tops hok
    simp only
    exact hok2.1

/-- Claim C6: the generated TOC is a faithful mirror of the heading list —
the preorder flattening of the hierarchical structure built by
`buildTOCStructure` equals the input heading order (hence exactly one item
per heading, in document order), every child item sits strictly deeper than
its parent, and the flat entry list rendered by `generateTOC` in
`script.js` has one entry per heading in order, each linking to
`'#' + heading.id` with the heading's text. -/
theorem c6_toc_mirrors_headings (headings : List HeadingInfo) :
    flatForest (buildTOCStructure headings) = headings ∧
    (∀ x ∈ buildTOCStructure headings, x.WellLeveled) ∧
    (generateTOCEntries headings).length = headings.length ∧
    (∀ i : Nat, (generateTOCEntries headings)[i]? = (headings[i]?).map tocEntryFor) ∧
    (∀ h : HeadingInfo, (tocEntryFor h).href = "#" ++ h.id ∧
      (tocEntryFor h).text = h.text) := by
  refine ⟨buildTOCStructure_flat headings, buildTOCStructure_wellLeveled headings,
    ?_, ?_, ?_⟩
  · simp [generateTOCEntries]
  · intro i
    simp [generateTOCEntries, List.getElem?_map]
  · intro h
    exact ⟨rfl, rfl⟩

/-! ## C1: heading-ID uniqueness fails in `script.js` for fallback collisions

In `js/toc.js` the `generateSlug` of `HeadingGenerator` tracks a
`generatedIds` set and suffixes a counter, so its ids are unique.  The
`script.js` `generateHeadingId`, however, returns the fallback
`heading-<index>` without rechecking it against the document: a heading
whose text slugifies to exactly `heading-<j>` collides with a later
heading at position `j` whose own slug is empty or taken. -/

/-- Claim C1 fails on the `script.js` generator: for the heading texts
`"Heading 1"` and `""`, the first heading slugifies to `heading-1` and the
second falls back to `heading-1` (its slug is empty and the fallback is not
rechecked), so the two ids coincide — heading IDs are not pairwise
distinct.  This contradicts both the spec invariant and the function's own
`Generate a unique ID` doc comment. -/
theorem c1_fallback_id_collision :
    generateTOCIds ["Heading 1", ""] = ["heading-1", "heading-1"] ∧
    ¬ (generateTOCIds ["Heading 1", ""]).Nodup := by
  constructor
  · rfl
  · decide
